import Mathlib

/-!
Verification development for the orchestration/decision core of the
AI-CEO platform repository (lore-mind-forge).

The repository ships the data model as SQL schemas (`database_export.sql`,
`ai_memory_system.py` schema embedded in the technical documentation) and
the orchestration components (`autopilot_manager.py`, `growth_engine.py`,
outcome collection / reinvestment logic) as documented interfaces; the
frontend route guard is `src/components/Guard.tsx`.  The components whose
bodies are not part of the source corpus are modelled from the
specification, faithfully to its words; each such definition carries a
doc comment saying so.  Machine reals of the schemas (`double precision`,
`REAL`) are modelled as exact rationals, matching the specification's
requirement that the running mean be exact.
-/

namespace LoreMind

/-- A ProfitLog ledger entry, after `profit_log` in database_export.sql
(`source`, `amount`, profit category, recording time); time is an abstract
tick (`Nat`). -/
structure ProfitEntry where
  source : String
  amount : ℚ
  category : String
  recorded_at : Nat
deriving DecidableEq, Repr

/-- An Experience ledger entry, after the `experiences` table of
`ai_memory_system.py` (action_type, context, result, success,
revenue_generated, timestamp). -/
structure Experience where
  action_type : String
  context : String
  result : String
  success : Bool
  revenue_generated : ℚ
  timestamp : Nat
deriving DecidableEq, Repr

/-- An AIEvent audit record (event_type, success, revenue_impact,
timestamp), after the spec's AIEvent and the `ai_events` export. -/
structure AIEvent where
  event_type : String
  success : Bool
  revenue_impact : ℚ
  timestamp : Nat
deriving DecidableEq, Repr

/-- The mutable aggregate shared by `successful_patterns` (usage_count
DEFAULT 1, success_rate, avg_revenue, last_used) and `strategy_cache`
(average_profit, usage_count, success_rate, last_used).  `successes`
tracks the number of successful outcomes so that `success_rate` can be
recomputed as successes / usage_count. -/
structure SuccessPattern where
  successes : Nat
  usage_count : Nat
  average_profit : ℚ
  success_rate : ℚ
  last_used : Nat
deriving DecidableEq, Repr

/-- Modelled from the spec: a settled task outcome delivered to the
Outcome Collector, carrying the stable task-outcome identifier used for
deduplication, the (scope, strategy) pattern key, the channel, success,
revenue, and a timestamp.  The collector implementation is not in the
source corpus. -/
structure TaskOutcomeRec where
  outcome_id : Nat
  key : String
  channel : String
  success : Bool
  revenue : ℚ
  timestamp : Nat
deriving DecidableEq, Repr

/-- Modelled from the spec: a fresh SuccessPattern / strategy-cache entry
lazily created on the first outcome for a key; `usage_count` starts at 1
(the `successful_patterns` schema declares `usage_count INTEGER DEFAULT
1`), counting the creating outcome. -/
def newPattern (o : TaskOutcomeRec) : SuccessPattern :=
  { successes := if o.success then 1 else 0
    usage_count := 1
    average_profit := o.revenue
    success_rate := ((if o.success then 1 else 0 : ℕ) : ℚ) / ((1 : ℕ) : ℚ)
    last_used := o.timestamp }

/-- Modelled from the spec: the incremental aggregate update applied on
each new outcome: `new_avg = old_avg + (outcome - old_avg) /
(usage_count + 1)`; `success_rate = successes / usage_count`; usage_count
increments; last_used refreshes. -/
def updatePattern (p : SuccessPattern) (o : TaskOutcomeRec) : SuccessPattern :=
  { successes := p.successes + (if o.success then 1 else 0)
    usage_count := p.usage_count + 1
    average_profit :=
      p.average_profit + (o.revenue - p.average_profit) / ((p.usage_count : ℚ) + 1)
    success_rate :=
      ((p.successes + (if o.success then 1 else 0) : ℕ) : ℚ) / ((p.usage_count + 1 : ℕ) : ℚ)
    last_used := o.timestamp }

/-- The SuccessPattern / strategy-cache entries reachable through the
Outcome Collector: lazily created on first use, then updated on every
outcome. -/
inductive PatternReachable : SuccessPattern → Prop
  | create (o : TaskOutcomeRec) : PatternReachable (newPattern o)
  | update {p : SuccessPattern} (o : TaskOutcomeRec) :
      PatternReachable p → PatternReachable (updatePattern p o)

/-- Modelled from the spec: the Outcome Collector's persistent state —
the set of already-processed task-outcome identifiers, the three
append-only ledgers, and the keyed pattern aggregates (an association
list standing for the keyed lookup index). -/
structure CollectorState where
  processed_ids : List Nat
  experiences : List Experience
  ai_events : List AIEvent
  profit_log : List ProfitEntry
  patterns : List (String × SuccessPattern)
deriving DecidableEq, Repr

def emptyCollector : CollectorState :=
  { processed_ids := []
    experiences := []
    ai_events := []
    profit_log := []
    patterns := [] }

/-- Modelled from the spec: update the keyed aggregate for the outcome's
key, creating the entry on first use. -/
def upsertPattern : List (String × SuccessPattern) → TaskOutcomeRec →
    List (String × SuccessPattern)
  | [], o => [(o.key, newPattern o)]
  | (k, p) :: rest, o =>
      if k = o.key then (k, updatePattern p o) :: rest
      else (k, p) :: upsertPattern rest o

/-- The Experience written for a settled outcome. -/
def outcomeExperience (o : TaskOutcomeRec) : Experience :=
  { action_type := o.channel
    context := o.key
    result := if o.success then "success" else "failure"
    success := o.success
    revenue_generated := o.revenue
    timestamp := o.timestamp }

/-- The AIEvent written for a settled outcome. -/
def outcomeEvent (o : TaskOutcomeRec) : AIEvent :=
  { event_type := o.channel
    success := o.success
    revenue_impact := o.revenue
    timestamp := o.timestamp }

/-- Modelled from the spec: the Outcome Collector.  For every settled
task outcome it writes one immutable Experience and AIEvent and — if the
outcome is revenue-bearing — exactly one ProfitLog entry, deduplicated by
the stable task-outcome identifier, then updates the relevant
SuccessPattern / strategy-cache entry.  A replayed identifier is a
no-op. -/
def collectOutcome (s : CollectorState) (o : TaskOutcomeRec) : CollectorState :=
  if o.outcome_id ∈ s.processed_ids then s
  else
    { processed_ids := o.outcome_id :: s.processed_ids
      experiences := s.experiences ++ [outcomeExperience o]
      ai_events := s.ai_events ++ [outcomeEvent o]
      profit_log :=
        if o.success ∧ o.revenue ≠ 0 then
          s.profit_log ++
            [{ source := o.channel
               amount := o.revenue
               category := o.key
               recorded_at := o.timestamp }]
        else s.profit_log
      patterns := upsertPattern s.patterns o }

/-- Total of all ProfitLog amounts. -/
def profitTotal (s : CollectorState) : ℚ :=
  (s.profit_log.map ProfitEntry.amount).sum

/-- usage_count recorded under a key (0 when the key is absent). -/
def usageCountOf (ps : List (String × SuccessPattern)) (k : String) : Nat :=
  match ps.find? (fun kp => kp.1 == k) with
  | some kp => kp.2.usage_count
  | none => 0

/-- A sample settled outcome, used to instantiate reachable states. -/
def sampleOutcome : TaskOutcomeRec :=
  { outcome_id := 0
    key := "fitness/paid_ads"
    channel := "product_creation"
    success := true
    revenue := 100
    timestamp := 1 }

lemma mem_processed_collectOutcome (s : CollectorState) (o : TaskOutcomeRec) :
    o.outcome_id ∈ (collectOutcome s o).processed_ids := by
  unfold collectOutcome
  by_cases h : o.outcome_id ∈ s.processed_ids
  · simp [h]
  · simp [h]

lemma collectOutcome_replay (s : CollectorState) (o : TaskOutcomeRec) :
    collectOutcome (collectOutcome s o) o = collectOutcome s o := by
  have h := mem_processed_collectOutcome s o
  conv_lhs => rw [collectOutcome]
  rw [if_pos h]

/-- C1: for any prior ledger state, replaying an already-collected
task-outcome identifier through the Outcome Collector is a no-op: the
total of ProfitLog amounts and the usage_count recorded under every
pattern key are unchanged by the replay. -/
theorem collector_replay_idempotent (s : CollectorState) (o : TaskOutcomeRec) :
    profitTotal (collectOutcome (collectOutcome s o) o) = profitTotal (collectOutcome s o) ∧
    ∀ k, usageCountOf (collectOutcome (collectOutcome s o) o).patterns k =
      usageCountOf (collectOutcome s o).patterns k := by
  rw [collectOutcome_replay]
  exact ⟨rfl, fun _ => rfl⟩

lemma updatePattern_average (p : SuccessPattern) (x : TaskOutcomeRec) (s : ℚ)
    (h1 : 1 ≤ p.usage_count) (havg : p.average_profit = s / (p.usage_count : ℚ)) :
    (updatePattern p x).average_profit = (s + x.revenue) / ((p.usage_count : ℚ) + 1) := by
  have hn : (p.usage_count : ℚ) ≠ 0 := by
    exact_mod_cast Nat.pos_iff_ne_zero.mp (Nat.lt_of_lt_of_le Nat.zero_lt_one h1)
  have hn1 : (p.usage_count : ℚ) + 1 ≠ 0 := by positivity
  simp only [updatePattern, havg]
  field_simp
  ring

lemma foldl_updatePattern_mean (os : List TaskOutcomeRec) :
    ∀ (p : SuccessPattern) (s : ℚ), 1 ≤ p.usage_count →
      p.average_profit = s / (p.usage_count : ℚ) →
      (os.foldl updatePattern p).average_profit =
        (s + (os.map TaskOutcomeRec.revenue).sum) / ((p.usage_count : ℚ) + os.length) ∧
      (os.foldl updatePattern p).usage_count = p.usage_count + os.length := by
  induction os with
  | nil =>
      intro p s h1 havg
      simpa using havg
  | cons x os ih =>
      intro p s h1 havg
      have hstep := updatePattern_average p x s h1 havg
      have h1' : 1 ≤ (updatePattern p x).usage_count := by
        simp [updatePattern]
      have hcount : ((updatePattern p x).usage_count : ℚ) = (p.usage_count : ℚ) + 1 := by
        simp [updatePattern]
      have := ih (updatePattern p x) (s + x.revenue) h1' (by rw [hstep, hcount])
      rcases this with ⟨hm, hc⟩
      constructor
      · rw [List.foldl_cons, hm, hcount]
        simp only [List.map_cons, List.sum_cons, List.length_cons]
        push_cast
        ring_nf
      · rw [List.foldl_cons, hc]
        simp [updatePattern, List.length_cons]
        omega

/-- C2: replaying the incremental update `new_avg = old_avg +
(outcome - old_avg) / (usage_count + 1)` outcome by outcome, starting
from the entry lazily created by the first outcome, yields an
average_profit equal to the exact arithmetic mean of the raw recorded
revenues for that key, and a usage_count equal to the number of recorded
outcomes. -/
theorem incremental_average_exact (o : TaskOutcomeRec) (os : List TaskOutcomeRec) :
    (os.foldl updatePattern (newPattern o)).average_profit =
      (((o :: os).map TaskOutcomeRec.revenue).sum) / (((o :: os).length : ℕ) : ℚ) ∧
    (os.foldl updatePattern (newPattern o)).usage_count = (o :: os).length := by
  have hbase : (newPattern o).average_profit = o.revenue / ((newPattern o).usage_count : ℚ) := by
    simp [newPattern]
  have h1 : 1 ≤ (newPattern o).usage_count := by simp [newPattern]
  have := foldl_updatePattern_mean os (newPattern o) o.revenue h1 hbase
  rcases this with ⟨hm, hc⟩
  constructor
  · rw [hm]
    simp only [List.map_cons, List.sum_cons, List.length_cons, newPattern]
    push_cast
    ring_nf
  · rw [hc]
    simp [newPattern, List.length_cons]
    omega

lemma pattern_invariant {p : SuccessPattern} (hp : PatternReachable p) :
    p.successes ≤ p.usage_count ∧ 1 ≤ p.usage_count ∧
      p.success_rate = (p.successes : ℚ) / (p.usage_count : ℚ) := by
  induction hp with
  | create o =>
      refine ⟨?_, ?_, ?_⟩ <;> by_cases h : o.success <;> simp [newPattern, h]
  | update o hp ih =>
      rcases ih with ⟨hs, h1, hr⟩
      refine ⟨?_, ?_, ?_⟩
      · by_cases h : o.success <;> simp [updatePattern, h] <;> omega
      · simp [updatePattern]
      · simp [updatePattern]

/-- C4: in every reachable SuccessPattern / strategy-cache entry, the
stored success_rate equals successes / usage_count and lies in [0, 1];
as the reachable set is closed under the collector's update, this is
preserved by every Outcome Collector update. -/
theorem success_rate_in_unit_interval {p : SuccessPattern} (hp : PatternReachable p) :
    p.success_rate = (p.successes : ℚ) / (p.usage_count : ℚ) ∧
      0 ≤ p.success_rate ∧ p.success_rate ≤ 1 := by
  rcases pattern_invariant hp with ⟨hs, h1, hr⟩
  have hpos : (0 : ℚ) < (p.usage_count : ℚ) := by exact_mod_cast Nat.lt_of_lt_of_le Nat.zero_lt_one h1
  refine ⟨hr, ?_, ?_⟩
  · rw [hr]
    exact div_nonneg (by positivity) (le_of_lt hpos)
  · rw [hr]
    rw [div_le_one hpos]
    exact_mod_cast hs

/-- Witness for C4 at the entry created by a concrete first outcome. -/
theorem success_rate_in_unit_interval_witness :
    (newPattern sampleOutcome).success_rate =
        ((newPattern sampleOutcome).successes : ℚ) / ((newPattern sampleOutcome).usage_count : ℚ) ∧
      0 ≤ (newPattern sampleOutcome).success_rate ∧
      (newPattern sampleOutcome).success_rate ≤ 1 :=
  success_rate_in_unit_interval (PatternReachable.create sampleOutcome)

/-- C9: every SuccessPattern record is created with usage_count 1
(counting the creating outcome), every update increments usage_count, and
hence in every reachable record usage_count is at least 1, so the
denominator of success_rate = successes / usage_count is never zero. -/
theorem usage_count_positive :
    (∀ o, (newPattern o).usage_count = 1) ∧
    (∀ p o, (updatePattern p o).usage_count = p.usage_count + 1) ∧
    (∀ p, PatternReachable p → 1 ≤ p.usage_count ∧ ((p.usage_count : ℚ) ≠ 0)) := by
  refine ⟨fun o => rfl, fun p o => rfl, fun p hp => ?_⟩
  rcases pattern_invariant hp with ⟨-, h1, -⟩
  refine ⟨h1, ?_⟩
  exact_mod_cast Nat.pos_iff_ne_zero.mp (Nat.lt_of_lt_of_le Nat.zero_lt_one h1)

/-- Witness for C9 at the entry created by a concrete first outcome. -/
theorem usage_count_positive_witness :
    1 ≤ (newPattern sampleOutcome).usage_count ∧
      ((newPattern sampleOutcome).usage_count : ℚ) ≠ 0 :=
  usage_count_positive.2.2 (newPattern sampleOutcome) (PatternReachable.create sampleOutcome)

/-- Modelled from the spec: the operations of the public ledger-touching
interface — collecting a settled outcome, and logically evicting a stale
cache entry (which prunes only the fast-path lookup index). -/
inductive LedgerOp
  | collect (o : TaskOutcomeRec)
  | evictEntry (k : String)
deriving DecidableEq

/-- Modelled from the spec: apply one public operation to the collector
state.  Logical eviction removes the key from the lookup index and
touches no ledger. -/
def applyLedgerOp (s : CollectorState) : LedgerOp → CollectorState
  | LedgerOp.collect o => collectOutcome s o
  | LedgerOp.evictEntry k =>
      { s with patterns := s.patterns.filter (fun kp => !(kp.1 == k)) }

lemma take_length_append {α : Type} (l t : List α) : (l ++ t).take l.length = l := by
  induction l with
  | nil => simp
  | cons a l ih => simp [ih]

/-- C5: the Memory Ledger is append-only — no operation of the public
interface mutates or deletes an existing Experience, AIEvent or
ProfitLog entry: after any operation, the previous ledgers survive
unchanged as the initial segments of the new ones. -/
theorem ledger_append_only (s : CollectorState) (op : LedgerOp) :
    (applyLedgerOp s op).experiences.take s.experiences.length = s.experiences ∧
    (applyLedgerOp s op).ai_events.take s.ai_events.length = s.ai_events ∧
    (applyLedgerOp s op).profit_log.take s.profit_log.length = s.profit_log := by
  cases op with
  | collect o =>
      simp only [applyLedgerOp, collectOutcome]
      by_cases h : o.outcome_id ∈ s.processed_ids
      · simp [h, List.take_length]
      · by_cases hr : o.success ∧ o.revenue ≠ 0 <;>
          simp [h, hr, take_length_append, List.take_length]
  | evictEntry k =>
      simp [applyLedgerOp, List.take_length]

/-! Orchestrator -/

/-- Orchestrator audit events: a cycle start, a cycle end, or a skipped
tick while the tenant's lease is held. -/
inductive OrchEvent
  | cycle_started (tenant : Nat)
  | cycle_ended (tenant : Nat)
  | orchestration_conflict (tenant : Nat)
deriving DecidableEq, Repr

/-- Modelled from the spec: the Orchestrator's scheduling state — the
tenant ids currently holding a lease (an ACTIVE, non-terminal cycle),
the audit event log, and the user-visible error surface. -/
structure OrchState where
  leases : List Nat
  orch_events : List OrchEvent
  user_errors : List String
deriving DecidableEq, Repr

def orchInit : OrchState :=
  { leases := [], orch_events := [], user_errors := [] }

/-- Modelled from the spec: a scheduled tick for a tenant.  If the
tenant's lease is held the tick is skipped and an OrchestrationConflict
event is logged — no second cycle starts and no user-visible error is
raised; otherwise a new cycle starts and takes the lease. -/
def tickOrch (s : OrchState) (t : Nat) : OrchState :=
  if t ∈ s.leases then
    { s with orch_events := s.orch_events ++ [OrchEvent.orchestration_conflict t] }
  else
    { s with
        leases := t :: s.leases
        orch_events := s.orch_events ++ [OrchEvent.cycle_started t] }

/-- Modelled from the spec: a cycle reaching a terminal state (back to
IDLE, FAILED or CANCELLED) releases the tenant's lease. -/
def finishCycle (s : OrchState) (t : Nat) : OrchState :=
  { s with
      leases := s.leases.erase t
      orch_events := s.orch_events ++ [OrchEvent.cycle_ended t] }

/-- The Orchestrator's step relation: scheduled ticks and cycle
terminations, for arbitrary tenants. -/
inductive OrchStep : OrchState → OrchState → Prop
  | tick (s : OrchState) (t : Nat) : OrchStep s (tickOrch s t)
  | finish (s : OrchState) (t : Nat) : OrchStep s (finishCycle s t)

/-- States reachable from the initial orchestrator state. -/
inductive OrchReachable : OrchState → Prop
  | init : OrchReachable orchInit
  | step {s s2 : OrchState} : OrchReachable s → OrchStep s s2 → OrchReachable s2

lemma tickOrch_nodup {s : OrchState} (t : Nat) (h : s.leases.Nodup) :
    (tickOrch s t).leases.Nodup := by
  unfold tickOrch
  by_cases hm : t ∈ s.leases
  · simpa [hm] using h
  · simp only [hm, if_false]
    exact List.Nodup.cons hm h

lemma finishCycle_nodup {s : OrchState} (t : Nat) (h : s.leases.Nodup) :
    (finishCycle s t).leases.Nodup :=
  List.Nodup.erase t h

lemma orch_leases_nodup {s : OrchState} (hs : OrchReachable s) : s.leases.Nodup := by
  induction hs with
  | init => simp [orchInit]
  | step hr hstep ih =>
      cases hstep with
      | tick t => exact tickOrch_nodup t ih
      | finish t => exact finishCycle_nodup t ih

/-- C3: in every reachable orchestrator state each tenant holds at most
one lease, i.e. at most one ACTIVE (non-terminal) cycle exists per
tenant; and a scheduled tick that fires while the tenant's lease is held
starts no second cycle — it only appends an OrchestrationConflict audit
event and surfaces no user-visible error. -/
theorem single_active_cycle_per_tenant {s : OrchState} (hs : OrchReachable s) :
    (∀ t, s.leases.count t ≤ 1) ∧
    (∀ t, t ∈ s.leases →
      (tickOrch s t).leases = s.leases ∧
      (tickOrch s t).orch_events =
        s.orch_events ++ [OrchEvent.orchestration_conflict t] ∧
      (tickOrch s t).user_errors = s.user_errors) := by
  refine ⟨fun t => List.nodup_iff_count_le_one.mp (orch_leases_nodup hs) t, ?_⟩
  intro t ht
  unfold tickOrch
  simp [ht]

/-- Witness for C3 in the reachable state where tenant 0 already holds
the lease: the lease count stays at one and the held-lease tick only
logs a conflict. -/
theorem single_active_cycle_per_tenant_witness :
    (tickOrch orchInit 0).leases.count 0 ≤ 1 ∧
      (tickOrch (tickOrch orchInit 0) 0).leases = (tickOrch orchInit 0).leases :=
  ⟨(single_active_cycle_per_tenant
      (OrchReachable.step OrchReachable.init (OrchStep.tick orchInit 0))).1 0,
   ((single_active_cycle_per_tenant
      (OrchReachable.step OrchReachable.init (OrchStep.tick orchInit 0))).2 0
      (by simp [tickOrch, orchInit])).1⟩

/-! Reinvestment Policy -/

/-- A trailing profit window, as an inclusive span of ticks. -/
structure ProfitWindow where
  lo : Nat
  hi : Nat
deriving DecidableEq, Repr

/-- Modelled from the spec: sum of the ProfitLog amounts recorded inside
the trailing window. -/
def windowTotal (log : List ProfitEntry) (w : ProfitWindow) : ℚ :=
  ((log.filter (fun e => decide (w.lo ≤ e.recorded_at) && decide (e.recorded_at ≤ w.hi))).map
    ProfitEntry.amount).sum

/-- A reinvestment directive emitted for a profit window. -/
structure Directive where
  window : ProfitWindow
  action : String
deriving DecidableEq, Repr

/-- Modelled from the spec: the Reinvestment Policy's state — the profit
ledger it reads, the windows already evaluated, and the directives
emitted so far. -/
structure ReinvestState where
  profit_log : List ProfitEntry
  evaluated : List ProfitWindow
  directives : List Directive
deriving DecidableEq, Repr

/-- Modelled from the spec (`AutopilotManager.reinvest_profits`, whose
revenue threshold is 1000): sum ProfitLog entries over the trailing
window and compare to the tenant's threshold; if exceeded and the window
has not been evaluated before, emit exactly one reinvestment directive
for that window and mark the window evaluated; otherwise emit nothing. -/
def reinvest_profits (s : ReinvestState) (w : ProfitWindow) (threshold : ℚ) : ReinvestState :=
  if threshold < windowTotal s.profit_log w ∧ w ∉ s.evaluated then
    { s with
        evaluated := w :: s.evaluated
        directives := s.directives ++ [{ window := w, action := "increase_budget" }] }
  else s

lemma reinvest_profits_of_evaluated {s : ReinvestState} {w : ProfitWindow} {th : ℚ}
    (h : w ∈ s.evaluated) : reinvest_profits s w th = s := by
  rw [reinvest_profits, if_neg]
  intro hc
  exact hc.2 h

/-- C6: with threshold 1000 and trailing-window realized profit 1200,
one evaluation of the Reinvestment Policy emits exactly one directive
for that window, and re-evaluating the same window with no new ProfitLog
entries emits zero further directives. -/
theorem reinvest_exactly_once (s : ReinvestState) (w : ProfitWindow)
    (htotal : windowTotal s.profit_log w = 1200) (hnew : w ∉ s.evaluated) :
    (reinvest_profits s w 1000).directives =
      s.directives ++ [{ window := w, action := "increase_budget" }] ∧
    reinvest_profits (reinvest_profits s w 1000) w 1000 = reinvest_profits s w 1000 := by
  have hcond : (1000 : ℚ) < windowTotal s.profit_log w ∧ w ∉ s.evaluated := by
    refine ⟨?_, hnew⟩
    rw [htotal]
    norm_num
  have h1 : reinvest_profits s w 1000 =
      { s with
          evaluated := w :: s.evaluated
          directives := s.directives ++ [{ window := w, action := "increase_budget" }] } := by
    rw [reinvest_profits, if_pos hcond]
  refine ⟨by rw [h1], ?_⟩
  have hmem : w ∈ (reinvest_profits s w 1000).evaluated := by
    rw [h1]
    exact List.mem_cons_self w s.evaluated
  exact reinvest_profits_of_evaluated hmem

/-- A concrete profit ledger realizing 1200 of profit inside the window
0..10 for the C6 witness. -/
def sampleReinvestState : ReinvestState :=
  { profit_log :=
      [{ source := "store", amount := 700, category := "sale", recorded_at := 3 },
       { source := "ads", amount := 500, category := "sale", recorded_at := 4 }]
    evaluated := []
    directives := [] }

/-- Witness for C6 on a concrete ledger whose trailing window holds 1200
of realized profit. -/
theorem reinvest_exactly_once_witness :
    (reinvest_profits sampleReinvestState ⟨0, 10⟩ 1000).directives =
      sampleReinvestState.directives ++
        [{ window := ⟨0, 10⟩, action := "increase_budget" }] ∧
    reinvest_profits (reinvest_profits sampleReinvestState ⟨0, 10⟩ 1000) ⟨0, 10⟩ 1000 =
      reinvest_profits sampleReinvestState ⟨0, 10⟩ 1000 :=
  reinvest_exactly_once sampleReinvestState ⟨0, 10⟩ (by norm_num [windowTotal, sampleReinvestState]) (by simp [sampleReinvestState])

/-! Execution Dispatcher -/

/-- The channel task kinds a strategy decomposes into. -/
inductive ChannelTaskKind
  | product_creation
  | store_deployment
  | ad_campaign
  | social_post
deriving DecidableEq, Repr

def kindName : ChannelTaskKind → String
  | ChannelTaskKind.product_creation => "product_creation"
  | ChannelTaskKind.store_deployment => "store_deployment"
  | ChannelTaskKind.ad_campaign => "ad_campaign"
  | ChannelTaskKind.social_post => "social_post"

/-- One collaborator response to one attempt of a task: success with
revenue, a transient adapter error (timeout / rate limit), or a
permanent adapter error. -/
inductive AttemptResult
  | ok (revenue : ℚ)
  | transient
  | permanent
deriving DecidableEq, Repr

/-- A settled per-task outcome: success, permanent failure, or a
degraded/timeout outcome after exhausted retries. -/
inductive TaskResult
  | success (revenue : ℚ)
  | failed
  | degraded
deriving DecidableEq, Repr

def TaskResult.isSuccess : TaskResult → Bool
  | TaskResult.success _ => true
  | _ => false

/-- An independent channel task: its kind and the successive collaborator
responses its attempts would observe. -/
structure ChannelTask where
  kind : ChannelTaskKind
  responses : List AttemptResult
deriving DecidableEq, Repr

/-- Modelled from the spec: the per-task timeout/retry wrapper.  An
attempt budget of `retries` is consumed one response at a time: a
success settles the task, a permanent error settles it as failed without
retrying, a transient error consumes one attempt and retries; an
exhausted budget (or a collaborator that never answers) settles the task
as DEGRADED. -/
def runTask : List AttemptResult → Nat → TaskResult
  | _, 0 => TaskResult.degraded
  | [], _ + 1 => TaskResult.degraded
  | AttemptResult.ok r :: _, _ + 1 => TaskResult.success r
  | AttemptResult.permanent :: _, _ + 1 => TaskResult.failed
  | AttemptResult.transient :: rest, n + 1 => runTask rest n

/-- Modelled from the spec: the Dispatcher fans the cycle's tasks out
independently (one task's failure never cancels or blocks a sibling) and
returns a complete set of per-task outcomes. -/
def dispatch (tasks : List ChannelTask) (retries : Nat) :
    List (ChannelTaskKind × TaskResult) :=
  tasks.map (fun t => (t.kind, runTask t.responses retries))

/-- The cycle-level result of a dispatched cycle: COMPLETED when every
task succeeded, DEGRADED otherwise — task-level failures are absorbed,
never escalated to a cycle-level failure. -/
inductive CycleResult
  | completed
  | degraded
deriving DecidableEq, Repr

def cycleResult (outs : List (ChannelTaskKind × TaskResult)) : CycleResult :=
  if outs.all (fun kr => kr.2.isSuccess) then CycleResult.completed
  else CycleResult.degraded

/-- Settled dispatcher outcomes converted to collector inputs, with the
position in the result set as the stable task-outcome identifier. -/
def settledOutcomes (outs : List (ChannelTaskKind × TaskResult)) : List TaskOutcomeRec :=
  outs.enum.map (fun ikr =>
    { outcome_id := ikr.1
      key := kindName ikr.2.1
      channel := kindName ikr.2.1
      success := ikr.2.2.isSuccess
      revenue := match ikr.2.2 with
        | TaskResult.success r => r
        | _ => 0
      timestamp := ikr.1 })

/-- Collect every settled outcome of a cycle into a fresh collector
state. -/
def collectCycle (outs : List (ChannelTaskKind × TaskResult)) : CollectorState :=
  (settledOutcomes outs).foldl collectOutcome emptyCollector

/-- Scenario B task set: three product-creation tasks that succeed on
their first attempt and one ad-campaign task whose collaborator times
out transiently on every attempt. -/
def scenarioTasks : List ChannelTask :=
  [{ kind := ChannelTaskKind.product_creation, responses := [AttemptResult.ok 100] },
   { kind := ChannelTaskKind.product_creation, responses := [AttemptResult.ok 80] },
   { kind := ChannelTaskKind.product_creation, responses := [AttemptResult.ok 120] },
   { kind := ChannelTaskKind.ad_campaign,
     responses := [AttemptResult.transient, AttemptResult.transient, AttemptResult.transient] }]

lemma runTask_transient_exhausted :
    ∀ (retries n : Nat), retries ≤ n →
      runTask (List.replicate n AttemptResult.transient) retries = TaskResult.degraded := by
  intro retries
  induction retries with
  | zero =>
      intro n hn
      cases n <;> rfl
  | succ r ih =>
      intro n hn
      cases n with
      | zero => omega
      | succ m =>
          rw [List.replicate_succ]
          exact ih m (Nat.succ_le_succ_iff.mp hn)

/-- C7: the Dispatcher settles every task of a cycle regardless of
sibling failures; a task whose attempts all time out transiently with an
exhausted retry budget settles as DEGRADED, a task outcome and not a
cycle failure; and in Scenario B (three product-creation successes, one
ad-campaign task timing out after exhausted retries) the cycle ends
DEGRADED, the ProfitLog holds zero ad-attributed entries, and exactly
four AIEvent records exist for the cycle — three successes and one
failure. -/
theorem degraded_cycle_isolation :
    (∀ (tasks : List ChannelTask) (retries : Nat),
      (dispatch tasks retries).length = tasks.length) ∧
    (∀ (retries n : Nat), retries ≤ n →
      runTask (List.replicate n AttemptResult.transient) retries = TaskResult.degraded) ∧
    cycleResult (dispatch scenarioTasks 3) = CycleResult.degraded ∧
    ((collectCycle (dispatch scenarioTasks 3)).profit_log.filter
      (fun e => e.source == "ad_campaign")).length = 0 ∧
    (collectCycle (dispatch scenarioTasks 3)).ai_events.length = 4 ∧
    ((collectCycle (dispatch scenarioTasks 3)).ai_events.filter
      (fun e => e.success)).length = 3 ∧
    ((collectCycle (dispatch scenarioTasks 3)).ai_events.filter
      (fun e => !e.success)).length = 1 := by
  refine ⟨fun tasks retries => List.length_map tasks _, runTask_transient_exhausted,
    ?_, ?_, ?_, ?_, ?_⟩ <;> rfl

/-- Witness for C7 discharging the retry-exhaustion hypothesis at the
concrete Scenario B budget. -/
theorem degraded_cycle_isolation_witness :
    runTask (List.replicate 3 AttemptResult.transient) 3 = TaskResult.degraded :=
  degraded_cycle_isolation.2.1 3 3 (Nat.le_refl 3)

/-! Decision Engine ranking -/

/-- A candidate strategy as read from the strategy cache: its cached
success_rate, average_profit and last_used recency. -/
structure StrategyCandidate where
  strategy : String
  success_rate : ℚ
  average_profit : ℚ
  last_used : Nat
deriving DecidableEq, Repr

/-- Modelled from the spec: the combined expected-value estimate,
mixing success_rate, average_profit and recency of last_used with
tunable policy weights. -/
def evScore (ws wp wr : ℚ) (c : StrategyCandidate) : ℚ :=
  ws * c.success_rate + wp * c.average_profit + wr * (c.last_used : ℚ)

/-- Modelled from the spec: the ranking order — strictly higher
expected-value score first, ties broken by the more-recently-used
entry. -/
def rankedBefore (ws wp wr : ℚ) (c d : StrategyCandidate) : Prop :=
  evScore ws wp wr d < evScore ws wp wr c ∨
    (evScore ws wp wr c = evScore ws wp wr d ∧ d.last_used ≤ c.last_used)

instance (ws wp wr : ℚ) : DecidableRel (rankedBefore ws wp wr) := fun c d => by
  unfold rankedBefore
  infer_instance

instance (ws wp wr : ℚ) : IsTotal StrategyCandidate (rankedBefore ws wp wr) := by
  constructor
  intro a b
  rcases lt_trichotomy (evScore ws wp wr a) (evScore ws wp wr b) with h | h | h
  · exact Or.inr (Or.inl h)
  · rcases Nat.le_total b.last_used a.last_used with hl | hl
    · exact Or.inl (Or.inr ⟨h, hl⟩)
    · exact Or.inr (Or.inr ⟨h.symm, hl⟩)
  · exact Or.inl (Or.inl h)

instance (ws wp wr : ℚ) : IsTrans StrategyCandidate (rankedBefore ws wp wr) := by
  constructor
  intro a b c hab hbc
  rcases hab with hab | ⟨hab, hab2⟩ <;> rcases hbc with hbc | ⟨hbc, hbc2⟩
  · exact Or.inl (lt_trans hbc hab)
  · exact Or.inl (hbc ▸ hab)
  · exact Or.inl (hab ▸ hbc)
  · exact Or.inr ⟨hab.trans hbc, le_trans hbc2 hab2⟩

/-- Modelled from the spec (`GrowthEngine.analyze_opportunities` sorts
candidates by score, descending): the Decision Engine's ranked output
over a candidate set. -/
def rankStrategies (ws wp wr : ℚ) (cs : List StrategyCandidate) : List StrategyCandidate :=
  cs.insertionSort (rankedBefore ws wp wr)

/-- C8: for every candidate set and every weighting, the Decision
Engine's output is a permutation of the candidates ranked in
non-increasing order of the combined expected-value score, and any two
candidates with equal scores appear with the more-recently-used (larger
last_used) entry first. -/
theorem ranking_sorted (ws wp wr : ℚ) (cs : List StrategyCandidate) :
    List.Pairwise (fun c d =>
        evScore ws wp wr d ≤ evScore ws wp wr c ∧
        (evScore ws wp wr c = evScore ws wp wr d → d.last_used ≤ c.last_used))
      (rankStrategies ws wp wr cs) ∧
    (rankStrategies ws wp wr cs).Perm cs := by
  constructor
  · refine (List.sorted_insertionSort (rankedBefore ws wp wr) cs).imp ?_
    intro c d h
    rcases h with h | ⟨h1, h2⟩
    · exact ⟨le_of_lt h, fun he => absurd (he ▸ h) (lt_irrefl _)⟩
    · exact ⟨le_of_eq h1.symm, fun _ => h2⟩
  · exact List.perm_insertionSort (rankedBefore ws wp wr) cs

/-! Route guard (src/components/Guard.tsx) -/

/-- The `role` union of Guard.tsx: `'user' | 'admin'`. -/
inductive Role
  | user
  | admin
deriving DecidableEq, Repr

/-- The authenticated user held by the auth store, carrying its role. -/
structure AuthUser where
  role : Role
deriving DecidableEq, Repr

/-- What the Guard component renders. -/
inductive GuardView
  | spinner
  | children
deriving DecidableEq, Repr

/-- The routes the Guard can navigate to. -/
inductive Route
  | login
  | dashboard
deriving DecidableEq, Repr

/-- The Guard's render decision (Guard.tsx lines 32-40): when `user` is
null it returns the spinner, otherwise the protected children; the
`role` prop is not consulted. -/
def guardView (user : Option AuthUser) (role : Role) : GuardView :=
  match user, role with
  | none, _ => GuardView.spinner
  | some _, _ => GuardView.children

/-- The Guard's navigation effect (Guard.tsx lines 20-30): a null user
navigates to /login and returns early; otherwise, when the required role
is admin and the user's role is not admin, it navigates to /dashboard;
otherwise it stays. -/
def guardNavigate (user : Option AuthUser) (role : Role) : Option Route :=
  match user with
  | none => some Route.login
  | some u =>
      if role = Role.admin ∧ ¬u.role = Role.admin then some Route.dashboard
      else none

/-- C10: the Guard renders the protected children exactly when the
current user is non-null; a null user gets the spinner and a navigation
to /login; a non-null user failing an admin requirement is navigated to
/dashboard; and the render decision is independent of the role check. -/
theorem guard_render_decision (user : Option AuthUser) (role : Role) :
    (guardView user role = GuardView.children ↔ user ≠ none) ∧
    (user = none →
      guardView user role = GuardView.spinner ∧ guardNavigate user role = some Route.login) ∧
    (∀ u, user = some u → role = Role.admin → ¬u.role = Role.admin →
      guardNavigate user role = some Route.dashboard) ∧
    (∀ r2 : Role, guardView user role = guardView user r2) := by
  refine ⟨?_, ?_, ?_, ?_⟩
  · cases user <;> simp [guardView]
  · intro h
    subst h
    exact ⟨rfl, rfl⟩
  · intro u hu hrole hur
    subst hu
    subst hrole
    simp [guardNavigate, hur]
  · intro r2
    cases user <;> rfl

/-- Witness for C10: a non-admin user behind an admin guard is rendered
the children and navigated to /dashboard; a null user is navigated to
/login. -/
theorem guard_render_decision_witness :
    guardNavigate (some { role := Role.user }) Role.admin = some Route.dashboard ∧
    guardView (some { role := Role.user }) Role.admin = GuardView.children ∧
    guardNavigate (none : Option AuthUser) Role.admin = some Route.login :=
  ⟨(guard_render_decision (some { role := Role.user }) Role.admin).2.2.1
      { role := Role.user } rfl rfl (by simp),
   (guard_render_decision (some { role := Role.user }) Role.admin).1.mpr (by simp),
   ((guard_render_decision (none : Option AuthUser) Role.admin).2.1 rfl).2⟩

end LoreMind
